import Mathlib

set_option maxRecDepth 100000

/-!
Verification of the 70mai dashcam GPS-telemetry extractor (src/70mai.py).

The development shallowly embeds the core of `parse_70mai_mp4`:
the top-level MP4-atom walk (lines 63-151 of the source), the GPS-record
inner loop (lines 100-148), the record layout (`struct.unpack` formats
`>I4s`, `>Q` and `<IIIIcici10s`), Python `datetime` arithmetic, and the
output line rendering (the two format strings at lines 122 and 135).

Conventions of the embedding:
- the input file is a `List Nat` of byte values; `f.read(n)` at position
  `p` is `readBytes input p n` (short reads near EOF return short lists,
  exactly like Python file reads);
- Python strings are `List Char`;
- the `while` loops become fuel-indexed structural recursions; the fuel
  passed at each call site strictly dominates the number of iterations
  the source loop can make, so the fuel-exhaustion branch is dead code;
- Python float arithmetic is modelled exactly, as integer fractions
  (`Frac`).  Every numeric claim checked here is exact at the relevant
  precision, so the real-valued model and IEEE doubles agree on them;
- `logging.error` / `logging.warning` calls are collected in the result
  (`logging.debug` and `logging.info` calls are not observable effects);
- an uncaught Python exception (`UnicodeDecodeError` from the two
  `decode('ascii')` calls at lines 79 and 112-113) is the `raised`
  outcome; the output sink is only marked closed on paths reaching
  `outfile.close()` (line 153).

The filename validation, base-timestamp parsing and skip/overwrite policy
(lines 21-61) are the caller-side plumbing the spec places out of scope;
the embedding takes the already-parsed base timestamp as a parameter.
-/

/-- `f.read(n)` from byte position `pos` of the container. -/
def readBytes (input : List Nat) (pos n : Nat) : List Nat :=
  (input.drop pos).take n

/-- Big-endian value of a byte list (`struct.unpack` formats `>I`, `>Q`). -/
def beBytes (l : List Nat) : Nat :=
  l.foldl (fun acc b => acc * 256 + b) 0

/-- Little-endian value of a byte list (`struct.unpack` format `<I`). -/
def leBytes (l : List Nat) : Nat :=
  l.foldr (fun b acc => acc * 256 + b) 0

/-- Signed reinterpretation of a 32-bit value (`struct.unpack` format `<i`). -/
def toI32 (n : Nat) : Int :=
  if n < 2 ^ 31 then (n : Int) else (n : Int) - 2 ^ 32

/-- The decimal digit character for `n < 10`. -/
def digitChar (n : Nat) : Char := Char.ofNat (48 + n)

/-- Decimal digits of `n`, most significant first; `[]` for `0`.
The first argument is recursion fuel; `fuel ≥ number of digits` suffices. -/
def natDigitsAux : Nat → Nat → List Char
  | 0, _ => []
  | fuel + 1, n => if n = 0 then [] else natDigitsAux fuel (n / 10) ++ [digitChar (n % 10)]

/-- Decimal rendering of a natural number, as Python renders an `int`. -/
def natDigits (n : Nat) : List Char :=
  if n = 0 then [digitChar 0] else natDigitsAux (n + 1) n

/-- Python `"{:02d}".format(n)` for a nonnegative value. -/
def pad2 (n : Nat) : List Char :=
  if n < 10 then digitChar 0 :: natDigits n else natDigits n

/-- Left-pad a digit string with zeros to `p` characters. -/
def padDigits (p : Nat) (l : List Char) : List Char :=
  List.replicate (p - l.length) (digitChar 0) ++ l

/-- Left-pad with spaces to width `w` (the `8` in format `{:8.4f}`). -/
def padSpaces (w : Nat) (l : List Char) : List Char :=
  List.replicate (w - l.length) ' ' ++ l

/-- An exact (unreduced) fraction; models a Python float value exactly.
All denominators appearing in the program are positive. -/
structure Frac where
  num : Int
  den : Int
deriving DecidableEq

/-- Exact division of fractions (Python float `/` on exact values). -/
def fracDiv (a b : Frac) : Frac := ⟨a.num * b.den, a.den * b.num⟩

/-- The rational value of a fraction. -/
def Frac.toRat (f : Frac) : ℚ := (f.num : ℚ) / (f.den : ℚ)

/-- Round `a / den` to the nearest natural number, ties to even
(the rounding used by Python `format` on exactly representable values). -/
def roundHalfEven (a den : Nat) : Nat :=
  let q := a / den
  let r := a % den
  if 2 * r < den then q
  else if den < 2 * r then q + 1
  else if q % 2 = 0 then q else q + 1

/-- Python `"{:.Pf}".format(v)`: fixed-point with `p` digits after the dot. -/
def fmtFixed (p : Nat) (f : Frac) : List Char :=
  let n := roundHalfEven (f.num.natAbs * 10 ^ p) f.den.toNat
  (if f.num < 0 then ['-'] else []) ++
    natDigits (n / 10 ^ p) ++ ['.'] ++ padDigits p (natDigits (n % 10 ^ p))

/-- Python `"{:W.Pf}".format(v)`: as `fmtFixed`, right-aligned to width `w`. -/
def fmtFixedW (w p : Nat) (f : Frac) : List Char :=
  padSpaces w (fmtFixed p f)

/-- A naive Python `datetime.datetime` (no timezone, second resolution;
microseconds are always zero in this program). -/
structure PyDateTime where
  year : Int
  month : Nat
  day : Nat
  hour : Nat
  minute : Nat
  second : Nat
deriving DecidableEq

/-- Days since the Unix epoch of a proleptic Gregorian civil date
(the standard era-based algorithm; embeds `datetime.date.toordinal`). -/
def daysFromCivil (y : Int) (m d : Nat) : Int :=
  let yy : Int := if m ≤ 2 then y - 1 else y
  let era : Int := Int.ediv yy 400
  let yoe : Nat := (yy - era * 400).toNat
  let mp : Nat := (m + 9) % 12
  let doy : Nat := (153 * mp + 2) / 5 + d - 1
  let doe : Nat := yoe * 365 + yoe / 4 - yoe / 100 + doy
  era * 146097 + (doe : Int) - 719468

/-- Civil date from days since the Unix epoch (inverse of `daysFromCivil`). -/
def civilFromDays (z0 : Int) : Int × Nat × Nat :=
  let z : Int := z0 + 719468
  let era : Int := Int.ediv z 146097
  let doe : Nat := (z - era * 146097).toNat
  let yoe : Nat := (doe - doe / 1460 + doe / 36524 - doe / 146096) / 365
  let doy : Nat := doe - (365 * yoe + yoe / 4 - yoe / 100)
  let mp : Nat := (5 * doy + 2) / 153
  let d : Nat := doy - (153 * mp + 2) / 5 + 1
  let m : Nat := if mp < 10 then mp + 3 else mp - 9
  (if m ≤ 2 then (yoe : Int) + era * 400 + 1 else (yoe : Int) + era * 400, m, d)

/-- `ftime + datetime.timedelta(seconds=diff)` (source line 118). -/
def addSeconds (t : PyDateTime) (diff : Nat) : PyDateTime :=
  let tot : Nat := t.hour * 3600 + t.minute * 60 + t.second + diff
  let carry : Nat := tot / 86400
  let rem : Nat := tot % 86400
  let ymd := civilFromDays (daysFromCivil t.year t.month t.day + carry)
  ⟨ymd.1, ymd.2.1, ymd.2.2, rem / 3600, rem % 3600 / 60, rem % 60⟩

/-- The `DDMMYY` date part of an output line:
`"{:02d}{:02d}{:02d}".format(timestamp.day, timestamp.month, timestamp.year % 100)`. -/
def dateChars (t : PyDateTime) : List Char :=
  pad2 t.day ++ pad2 t.month ++ pad2 (Int.emod t.year 100).toNat

/-- The `HHMMSS` time part of an output line (the `.000` tail is appended
by the caller, as in the source format strings). -/
def timeChars (t : PyDateTime) : List Char :=
  pad2 t.hour ++ pad2 t.minute ++ pad2 t.second

/-- One 36-byte GPS record, fields as unpacked by
`struct.unpack('<IIIIcici10s', record)` (source line 107). -/
structure GpsRecord where
  f1 : Nat
  f2 : Nat
  time_diff : Nat
  speed : Nat
  clat : Nat
  lat : Int
  clon : Nat
  lon : Int
  rest : List Nat
deriving DecidableEq

/-- Field extraction from a 36-byte record
(layout `<IIIIcici10s`: offsets 0,4,8,12 u32; 16 byte; 17 i32; 21 byte; 22 i32; 26 ten raw bytes). -/
def unpackRecord (b : List Nat) : GpsRecord where
  f1 := leBytes (readBytes b 0 4)
  f2 := leBytes (readBytes b 4 4)
  time_diff := leBytes (readBytes b 8 4)
  speed := leBytes (readBytes b 12 4)
  clat := b.getD 16 0
  lat := toI32 (leBytes (readBytes b 17 4))
  clon := b.getD 21 0
  lon := toI32 (leBytes (readBytes b 22 4))
  rest := readBytes b 26 10

/-- `float(lat)/1000.0` (source line 128). -/
def latFrac (r : GpsRecord) : Frac := fracDiv ⟨r.lat, 1⟩ ⟨1000, 1⟩

/-- `float(lon)/1000.0` (source line 130). -/
def lonFrac (r : GpsRecord) : Frac := fracDiv ⟨r.lon, 1⟩ ⟨1000, 1⟩

/-- `float(speed)/1000.0/1.852` (source line 132). -/
def speedFrac (r : GpsRecord) : Frac :=
  fracDiv (fracDiv ⟨(r.speed : Int), 1⟩ ⟨1000, 1⟩) ⟨1852, 1000⟩

/-- The output line for one record (source lines 118-140): format string
`A,{:02d}{:02d}{:02d},{:02d}{:02d}{:02d}.000,{:8.4f},{},{:8.4f},{},{:.2f},,,,;`
when `f2 == 1`, else
`V,{:02d}{:02d}{:02d},{:02d}{:02d}{:02d}.000,,,,,,M,,,;`. -/
def renderRecord (base : PyDateTime) (r : GpsRecord) : List Char :=
  let ts := addSeconds base r.time_diff
  if r.f2 = 1 then
    ['A', ','] ++ dateChars ts ++ [','] ++ timeChars ts ++ ['.', '0', '0', '0', ','] ++
      fmtFixedW 8 4 (latFrac r) ++ [','] ++ [Char.ofNat r.clat] ++ [','] ++
      fmtFixedW 8 4 (lonFrac r) ++ [','] ++ [Char.ofNat r.clon] ++ [','] ++
      fmtFixed 2 (speedFrac r) ++ [',', ',', ',', ',', ';']
  else
    ['V', ','] ++ dateChars ts ++ [','] ++ timeChars ts ++ ['.', '0', '0', '0', ','] ++
      [',', ',', ',', ',', ',', 'M', ',', ',', ',', ';']

/-- The observable `logging.error` events of the atom walk.
`bigSizeTruncated` is line 91, `recordTruncated` is line 104.
(The `struct.error` handlers at lines 75-77 and 108-110 are dead code:
`struct.unpack` on a buffer of exactly the format size cannot fail.) -/
inductive LogErr where
  | bigSizeTruncated
  | recordTruncated
deriving DecidableEq

/-- How processing of one container ends.  `completed` reaches
`outfile.close()` at line 153; `raised` is an uncaught exception escaping
`parse_70mai_mp4`; `fuelOut` is the unreachable fuel-exhaustion marker. -/
inductive Outcome where
  | completed
  | raised
  | fuelOut
deriving DecidableEq

/-- Result of processing one container: lines written to the sink, error
log events, count of `logging.warning` calls (line 147-148), whether the
output sink was closed, and how the routine exited. -/
structure ParseResult where
  lines : List (List Char)
  errors : List LogErr
  warns : Nat
  sinkClosed : Bool
  outcome : Outcome
deriving DecidableEq

/-- Result of the GPS-record inner loop: lines emitted, error events,
whether a `UnicodeDecodeError` was raised, and the final `gps_size`. -/
structure GpsResult where
  lines : List (List Char)
  errors : List LogErr
  exc : Bool
  gpsEnd : Nat
deriving DecidableEq

/-- The inner record loop (source lines 100-145):
`gps_size = 8; while gps_size + 36 <= atom_size: ...`.
Arguments after `atomSize`: fuel, `gps_size`, current file position.
Each iteration moves `gps_size` up by 36, so `atomSize + 1` fuel always
dominates the iteration count. -/
def gpsLoop (input : List Nat) (base : PyDateTime) (atomSize : Nat) :
    Nat → Nat → Nat → GpsResult
  | 0, gpsSize, _ => ⟨[], [], false, gpsSize⟩
  | fuel + 1, gpsSize, filePos =>
    if gpsSize + 36 ≤ atomSize then
      let record := readBytes input filePos 36
      if record.length < 36 then ⟨[], [LogErr.recordTruncated], false, gpsSize⟩
      else
        let r := unpackRecord record
        if 128 ≤ r.clat ∨ 128 ≤ r.clon then ⟨[], [], true, gpsSize⟩
        else
          let line := renderRecord base r
          let restR := gpsLoop input base atomSize fuel (gpsSize + 36) (filePos + 36)
          ⟨line :: restR.lines, restR.errors, restR.exc, restR.gpsEnd⟩
    else ⟨[], [], false, gpsSize⟩

/-- Effect of one iteration of the outer `while True` atom loop:
`broke` exits the loop normally (`break`), `raised` aborts with an
uncaught exception, `next` continues at the given next offset. -/
inductive Step where
  | broke (errors : List LogErr)
  | raised (lines : List (List Char)) (errors : List LogErr)
  | next (nextOffset : Nat) (lines : List (List Char)) (errors : List LogErr) (warns : Nat)
deriving DecidableEq

/-- Processing of one atom once its type and size are known (source lines
97-151).  `offsetBase` is the value of the `offset` variable at line 150
before `offset += atom_size` (for a big atom the source has already done
`offset += 8` at line 88); `filePos` is the read position of the first
GPS record (right after the 8- or 16-byte header). -/
def processAtom (input : List Nat) (base : PyDateTime) (typeB : List Nat)
    (atomSize offsetBase filePos : Nat) : Step :=
  if typeB = [71, 80, 83, 32] then
    let g := gpsLoop input base atomSize (atomSize + 1) 8 filePos
    if g.exc then Step.raised g.lines g.errors
    else Step.next (offsetBase + atomSize) g.lines g.errors
      (if g.gpsEnd ≠ atomSize then 1 else 0)
  else Step.next (offsetBase + atomSize) [] [] 0

/-- One iteration of the outer atom loop at byte `offset` (source lines
66-151): read an 8-byte header, stop on a short read, decode the type
tag, handle `atom_size` 0 (last atom) and 1 (64-bit size extension),
then process the atom. -/
def stepBlock (input : List Nat) (base : PyDateTime) (offset : Nat) : Step :=
  let header := readBytes input offset 8
  if header.length < 8 then Step.broke []
  else
    let size32 := beBytes (header.take 4)
    let typeB := header.drop 4
    if typeB.any (fun b => 128 ≤ b) then Step.raised [] []
    else if size32 = 0 then Step.broke []
    else if size32 = 1 then
      let size64b := readBytes input (offset + 8) 8
      if size64b.length < 8 then Step.broke [LogErr.bigSizeTruncated]
      else processAtom input base typeB (beBytes size64b) (offset + 8) (offset + 16)
    else processAtom input base typeB size32 offset (offset + 8)

/-- Accumulate one iteration's output in front of a loop result. -/
def consResult (ls : List (List Char)) (es : List LogErr) (ws : Nat)
    (r : ParseResult) : ParseResult :=
  ⟨ls ++ r.lines, es ++ r.errors, ws + r.warns, r.sinkClosed, r.outcome⟩

/-- The outer `while True` loop over top-level atoms.  Every `next` step
advances `offset` by at least 2 and the loop body only runs while
`offset + 8 ≤ input.length`, so `input.length + 1` fuel always dominates
the iteration count. -/
def parseLoop (input : List Nat) (base : PyDateTime) : Nat → Nat → ParseResult
  | 0, _ => ⟨[], [], 0, false, Outcome.fuelOut⟩
  | fuel + 1, offset =>
    match stepBlock input base offset with
    | Step.broke es => ⟨[], es, 0, true, Outcome.completed⟩
    | Step.raised ls es => ⟨ls, es, 0, false, Outcome.raised⟩
    | Step.next noff ls es ws => consResult ls es ws (parseLoop input base fuel noff)

/-- Processing of one container body given its bytes and the base
timestamp already parsed from the file name (source lines 63-153). -/
def parse_70mai_mp4 (input : List Nat) (base : PyDateTime) : ParseResult :=
  parseLoop input base (input.length + 1) 0

/-- The base timestamp of the worked example in the spec:
file `NO20200127-170409-...`, i.e. 2020-01-27 17:04:09. -/
def sampleBase : PyDateTime := ⟨2020, 1, 27, 17, 4, 9⟩

/-- Comma-separated fields of an output line.  The `;` at the end of a
line is the line terminator of the output convention; it ends up inside
the final field. -/
def splitFields : List Char → List (List Char)
  | [] => [[]]
  | c :: cs =>
    if c = ',' then [] :: splitFields cs
    else
      match splitFields cs with
      | [] => [[c]]
      | f :: fs => (c :: f) :: fs

/-- A container that is exactly one `GPS ` atom of declared size 136
with a 128-byte payload: room for 3 records plus 20 leftover bytes. -/
def gpsContainer136 : List Nat :=
  [0, 0, 0, 136, 71, 80, 83, 32] ++ List.replicate 128 0

/-- A container starting with a big (64-bit size) `GPS ` atom: 32-bit
size field 1, then the 64-bit size 44, then one 36-byte record. -/
def bigAtomContainer : List Nat :=
  [0, 0, 0, 1, 71, 80, 83, 32, 0, 0, 0, 0, 0, 0, 0, 44] ++ List.replicate 36 0

/-- A container that is one ordinary `GPS ` atom of size 44 holding the
same single zero record as `bigAtomContainer`. -/
def ordAtomContainer : List Nat :=
  [0, 0, 0, 44, 71, 80, 83, 32] ++ List.replicate 36 0

/-- A 4-byte container: the first header read returns only 4 bytes. -/
def shortHeaderContainer : List Nat := [0, 0, 0, 16]

/-- A container whose first atom has a non-ASCII type-tag byte (200),
making `atom_type.decode('ascii')` at line 79 raise. -/
def badTypeContainer : List Nat := [0, 0, 0, 16, 200, 65, 66, 67]

/-- A `GPS ` atom of size 50 in a 12-byte file: the record read gets
only 4 bytes, so the record loop stops early with an error. -/
def truncRecordContainer : List Nat := [0, 0, 0, 50, 71, 80, 83, 32, 1, 2, 3, 4]

/-- A `GPS ` atom whose single record has latitude-hemisphere byte 200
(not ASCII), making `clat.decode('ascii')` at line 112 raise. -/
def badHemiContainer : List Nat :=
  [0, 0, 0, 44, 71, 80, 83, 32] ++ (List.replicate 16 0 ++ 200 :: List.replicate 19 0)

/-- Well-formedness of one top-level atom given as its byte slice: it
has at least the 8-byte header, its declared 32-bit size equals its
actual length (so the atoms sit back-to-back and the container ends
cleanly after the last one), and its type tag is ASCII. -/
def WFAtom (a : List Nat) : Prop :=
  8 ≤ a.length ∧ beBytes (a.take 4) = a.length ∧ ∀ b ∈ (a.drop 4).take 4, b < 128

/-- The atom's type tag is `GPS ` (bytes 71, 80, 83, 32). -/
def isGpsAtom (a : List Nat) : Prop :=
  (a.drop 4).take 4 = [71, 80, 83, 32]

/-- Every record of a telemetry atom decodes: record `k` occupies atom
bytes `8 + 36k ..` and its hemisphere bytes (record offsets 16 and 21)
are ASCII. -/
def WFGpsPayload (a : List Nat) : Prop :=
  ∀ k, 8 + 36 * k + 36 ≤ a.length →
    a.getD (8 + 36 * k + 16) 0 < 128 ∧ a.getD (8 + 36 * k + 21) 0 < 128

/-- Output lines the decoder emits for one atom: `(size - 8) / 36` for
a telemetry atom, none for any other type. -/
def atomLineCount (a : List Nat) : Nat :=
  if (a.drop 4).take 4 = [71, 80, 83, 32] then (a.length - 8) / 36 else 0

/-- Size-mismatch warnings logged for one atom: one for a telemetry
atom whose payload is not an exact multiple of 36 bytes. -/
def atomWarnCount (a : List Nat) : Nat :=
  if (a.drop 4).take 4 = [71, 80, 83, 32] ∧ (a.length - 8) % 36 ≠ 0 then 1 else 0

/-- A `free` atom of size 12 (not telemetry). -/
def freeAtom : List Nat := [0, 0, 0, 12, 102, 114, 101, 101, 9, 9, 9, 9]

/-- An `mdat` atom of size 9 (not telemetry). -/
def mdatAtom : List Nat := [0, 0, 0, 9, 109, 100, 97, 116, 7]

/-- The record unpacked from 36 zero bytes (invalid fix, offset 0). -/
def recordZero : GpsRecord := unpackRecord (List.replicate 36 0)

/-- A valid-fix record with `lat_raw = 51500`, hemispheres `N`/`E`. -/
def recordLatPos : GpsRecord := ⟨0, 1, 0, 0, 78, 51500, 69, 0, List.replicate 10 0⟩

/-- A valid-fix record with `lat_raw = -51500`, hemispheres `N`/`E`. -/
def recordLatNeg : GpsRecord := ⟨0, 1, 0, 0, 78, -51500, 69, 0, List.replicate 10 0⟩

/-- An invalid-fix record with `time_offset_seconds = 5`. -/
def recordTime5 : GpsRecord := ⟨0, 0, 5, 0, 0, 0, 0, 0, List.replicate 10 0⟩

/-- A valid-fix record with `speed_raw = 1852` (exactly one knot). -/
def recordSpeedKnot : GpsRecord := ⟨0, 1, 0, 1852, 78, 0, 69, 0, List.replicate 10 0⟩

/-- A valid-fix record whose hemisphere bytes are the unusual but ASCII
characters `x` (120) and `?` (63). -/
def recordOddHemi : GpsRecord := ⟨0, 1, 0, 0, 120, 0, 63, 0, List.replicate 10 0⟩


theorem splitFields_append_comma (a b : List Char) (ha : ',' ∉ a) :
    splitFields (a ++ ',' :: b) = a :: splitFields b := by
  induction a with
  | nil => simp [splitFields]
  | cons c a ih =>
    have hc : c ≠ ',' := fun h => ha (h ▸ List.mem_cons_self c a)
    have ha' : ',' ∉ a := fun h => ha (List.mem_cons_of_mem c h)
    simp only [List.cons_append, splitFields, if_neg hc, List.append_eq, ih ha']

theorem splitFields_no_comma (a : List Char) (ha : ',' ∉ a) :
    splitFields a = [a] := by
  induction a with
  | nil => simp [splitFields]
  | cons c a ih =>
    have hc : c ≠ ',' := fun h => ha (h ▸ List.mem_cons_self c a)
    have ha' : ',' ∉ a := fun h => ha (List.mem_cons_of_mem c h)
    simp only [splitFields, if_neg hc, ih ha']

theorem comma_notMem_digitChar (n : Nat) (h : n < 10) : digitChar n ≠ ',' := by
  revert h
  revert n
  decide

theorem comma_notMem_natDigitsAux (fuel n : Nat) : ',' ∉ natDigitsAux fuel n := by
  induction fuel generalizing n with
  | zero => simp [natDigitsAux]
  | succ fuel ih =>
    simp only [natDigitsAux]
    split
    · simp
    · intro hmem
      rcases List.mem_append.1 hmem with h | h
      · exact ih _ h
      · rcases List.mem_singleton.1 h with h
        exact comma_notMem_digitChar _ (Nat.mod_lt _ (by omega)) h.symm

theorem comma_notMem_natDigits (n : Nat) : ',' ∉ natDigits n := by
  unfold natDigits
  split
  · simp
    decide
  · exact fun h => comma_notMem_natDigitsAux _ _ h

theorem comma_notMem_pad2 (n : Nat) : ',' ∉ pad2 n := by
  unfold pad2
  split
  · intro h
    rcases List.mem_cons.1 h with h | h
    · exact absurd h.symm (by decide)
    · exact comma_notMem_natDigits _ h
  · exact comma_notMem_natDigits _

theorem comma_notMem_padDigits (p : Nat) (l : List Char) (hl : ',' ∉ l) :
    ',' ∉ padDigits p l := by
  intro h
  rcases List.mem_append.1 h with h | h
  · exact absurd (List.eq_of_mem_replicate h) (by decide)
  · exact hl h

theorem comma_notMem_padSpaces (w : Nat) (l : List Char) (hl : ',' ∉ l) :
    ',' ∉ padSpaces w l := by
  intro h
  rcases List.mem_append.1 h with h | h
  · exact absurd (List.eq_of_mem_replicate h) (by decide)
  · exact hl h

theorem comma_notMem_fmtFixed (p : Nat) (f : Frac) : ',' ∉ fmtFixed p f := by
  unfold fmtFixed
  intro h
  rcases List.mem_append.1 h with h | h
  · rcases List.mem_append.1 h with h | h
    · rcases List.mem_append.1 h with h | h
      · split at h
        · exact absurd (List.mem_singleton.1 h) (by decide)
        · simp at h
      · exact comma_notMem_natDigits _ h
    · exact absurd (List.mem_singleton.1 h) (by decide)
  · exact comma_notMem_padDigits _ _ (comma_notMem_natDigits _) h

theorem comma_notMem_fmtFixedW (w p : Nat) (f : Frac) : ',' ∉ fmtFixedW w p f :=
  comma_notMem_padSpaces _ _ (comma_notMem_fmtFixed _ _)

theorem comma_notMem_dateChars (t : PyDateTime) : ',' ∉ dateChars t := by
  intro h
  rcases List.mem_append.1 h with h | h
  · rcases List.mem_append.1 h with h | h
    · exact comma_notMem_pad2 _ h
    · exact comma_notMem_pad2 _ h
  · exact comma_notMem_pad2 _ h

theorem comma_notMem_timeField (t : PyDateTime) :
    ',' ∉ timeChars t ++ ['.', '0', '0', '0'] := by
  intro h
  rcases List.mem_append.1 h with h | h
  · rcases List.mem_append.1 h with h | h
    · rcases List.mem_append.1 h with h | h
      · exact comma_notMem_pad2 _ h
      · exact comma_notMem_pad2 _ h
    · exact comma_notMem_pad2 _ h
  · simp at h

theorem charOfNat_ne_comma (n : Nat) (hn : n < 128) (h44 : n ≠ 44) :
    Char.ofNat n ≠ ',' := by
  revert h44
  revert hn
  revert n
  decide

/-- The comma-separated fields of the line rendered for one record.
The hypotheses say the two hemisphere bytes decode (are ASCII) and are
not themselves the `,` separator. -/
theorem splitFields_renderRecord (base : PyDateTime) (r : GpsRecord)
    (hlat : r.clat < 128) (hlon : r.clon < 128)
    (hlat44 : r.clat ≠ 44) (hlon44 : r.clon ≠ 44) :
    splitFields (renderRecord base r) =
      if r.f2 = 1 then
        [['A'], dateChars (addSeconds base r.time_diff),
         timeChars (addSeconds base r.time_diff) ++ ['.', '0', '0', '0'],
         fmtFixedW 8 4 (latFrac r), [Char.ofNat r.clat],
         fmtFixedW 8 4 (lonFrac r), [Char.ofNat r.clon],
         fmtFixed 2 (speedFrac r), [], [], [], [';']]
      else
        [['V'], dateChars (addSeconds base r.time_diff),
         timeChars (addSeconds base r.time_diff) ++ ['.', '0', '0', '0'],
         [], [], [], [], [], ['M'], [], [], [';']] := by
  have hA : (',' : Char) ∉ ['A'] := by decide
  have hV : (',' : Char) ∉ ['V'] := by decide
  have hM : (',' : Char) ∉ ['M'] := by decide
  have hnil : (',' : Char) ∉ ([] : List Char) := by decide
  have hclat : (',' : Char) ∉ [Char.ofNat r.clat] := by
    intro h
    exact charOfNat_ne_comma _ hlat hlat44 (List.mem_singleton.1 h).symm
  have hclon : (',' : Char) ∉ [Char.ofNat r.clon] := by
    intro h
    exact charOfNat_ne_comma _ hlon hlon44 (List.mem_singleton.1 h).symm
  by_cases hf : r.f2 = 1
  · have hshape : renderRecord base r =
        ['A'] ++ ',' :: (dateChars (addSeconds base r.time_diff) ++ ',' ::
          ((timeChars (addSeconds base r.time_diff) ++ ['.', '0', '0', '0']) ++ ',' ::
            (fmtFixedW 8 4 (latFrac r) ++ ',' ::
              ([Char.ofNat r.clat] ++ ',' ::
                (fmtFixedW 8 4 (lonFrac r) ++ ',' ::
                  ([Char.ofNat r.clon] ++ ',' ::
                    (fmtFixed 2 (speedFrac r) ++ ',' ::
                      ([] ++ ',' :: ([] ++ ',' :: ([] ++ ',' :: [';'])))))))))) := by
      simp [renderRecord, hf, List.append_assoc]
    rw [hshape,
      splitFields_append_comma _ _ hA,
      splitFields_append_comma _ _ (comma_notMem_dateChars _),
      splitFields_append_comma _ _ (comma_notMem_timeField _),
      splitFields_append_comma _ _ (comma_notMem_fmtFixedW _ _ _),
      splitFields_append_comma _ _ hclat,
      splitFields_append_comma _ _ (comma_notMem_fmtFixedW _ _ _),
      splitFields_append_comma _ _ hclon,
      splitFields_append_comma _ _ (comma_notMem_fmtFixed _ _),
      splitFields_append_comma _ _ hnil,
      splitFields_append_comma _ _ hnil,
      splitFields_append_comma _ _ hnil,
      splitFields_no_comma _ (by decide)]
    simp [hf]
  · have hshape : renderRecord base r =
        ['V'] ++ ',' :: (dateChars (addSeconds base r.time_diff) ++ ',' ::
          ((timeChars (addSeconds base r.time_diff) ++ ['.', '0', '0', '0']) ++ ',' ::
            ([] ++ ',' :: ([] ++ ',' :: ([] ++ ',' :: ([] ++ ',' :: ([] ++ ',' ::
              (['M'] ++ ',' :: ([] ++ ',' :: ([] ++ ',' :: [';'])))))))))) := by
      simp [renderRecord, hf, List.append_assoc]
    rw [hshape,
      splitFields_append_comma _ _ hV,
      splitFields_append_comma _ _ (comma_notMem_dateChars _),
      splitFields_append_comma _ _ (comma_notMem_timeField _),
      splitFields_append_comma _ _ hnil,
      splitFields_append_comma _ _ hnil,
      splitFields_append_comma _ _ hnil,
      splitFields_append_comma _ _ hnil,
      splitFields_append_comma _ _ hnil,
      splitFields_append_comma _ _ hM,
      splitFields_append_comma _ _ hnil,
      splitFields_append_comma _ _ hnil,
      splitFields_no_comma _ (by decide)]
    simp [hf]

theorem readBytes_length (input : List Nat) (pos n : Nat) :
    (readBytes input pos n).length = min n (input.length - pos) := by
  simp [readBytes]

theorem readBytes_getD (input : List Nat) (pos n i : Nat) (hi : i < n) :
    (readBytes input pos n).getD i 0 = input.getD (pos + i) 0 := by
  simp [readBytes, List.getD, List.getElem?_take, hi, List.getElem?_drop]

theorem getD_append_right (l₁ l₂ : List Nat) (i : Nat) :
    (l₁ ++ l₂).getD (l₁.length + i) 0 = l₂.getD i 0 := by
  simp [List.getD, List.getElem?_append_right (Nat.le_add_right l₁.length i)]

theorem getD_replicate_zero (n i : Nat) : (List.replicate n (0 : Nat)).getD i 0 = 0 := by
  rcases Nat.lt_or_ge i n with h | h
  · simp [List.getD, List.getElem?_replicate, h]
  · simp [List.getD, List.getElem?_replicate, Nat.not_lt.mpr h]

/-- The record loop on a fully available, fully decodable byte range:
no error, no exception, `(atomSize - gpsSize) / 36` lines emitted, and
the final `gps_size` is `gpsSize + 36 * that count`. -/
theorem gpsLoop_complete (input : List Nat) (base : PyDateTime) (atomSize : Nat) :
    ∀ (fuel gpsSize filePos : Nat),
    atomSize ≤ gpsSize + 36 * fuel →
    filePos + (atomSize - gpsSize) ≤ input.length →
    (∀ k, gpsSize + 36 * k + 36 ≤ atomSize →
      input.getD (filePos + 36 * k + 16) 0 < 128 ∧
      input.getD (filePos + 36 * k + 21) 0 < 128) →
    (gpsLoop input base atomSize fuel gpsSize filePos).errors = [] ∧
    (gpsLoop input base atomSize fuel gpsSize filePos).exc = false ∧
    (gpsLoop input base atomSize fuel gpsSize filePos).gpsEnd
        = gpsSize + 36 * ((atomSize - gpsSize) / 36) ∧
    (gpsLoop input base atomSize fuel gpsSize filePos).lines.length
        = (atomSize - gpsSize) / 36 := by
  intro fuel
  induction fuel with
  | zero =>
    intro gpsSize filePos hfuel havail hhem
    have hz : atomSize - gpsSize = 0 := by omega
    simp [gpsLoop, hz]
  | succ fuel ih =>
    intro gpsSize filePos hfuel havail hhem
    by_cases hc : gpsSize + 36 ≤ atomSize
    · have hread : (readBytes input filePos 36).length = 36 := by
        rw [readBytes_length]; omega
      have hnotshort : ¬ (readBytes input filePos 36).length < 36 := by omega
      have hclat : (unpackRecord (readBytes input filePos 36)).clat
          = input.getD (filePos + 16) 0 := by
        simp only [unpackRecord]
        exact readBytes_getD input filePos 36 16 (by omega)
      have hclon : (unpackRecord (readBytes input filePos 36)).clon
          = input.getD (filePos + 21) 0 := by
        simp only [unpackRecord]
        exact readBytes_getD input filePos 36 21 (by omega)
      have hhem0 := hhem 0 (by omega)
      have hdec : ¬ (128 ≤ (unpackRecord (readBytes input filePos 36)).clat ∨
          128 ≤ (unpackRecord (readBytes input filePos 36)).clon) := by
        rw [hclat, hclon]
        push_neg
        constructor
        · have := hhem0.1
          simpa using this
        · have := hhem0.2
          simpa using this
      have hrec := ih (gpsSize + 36) (filePos + 36) (by omega) (by omega)
        (fun k hk => by
          have h1 := hhem (k + 1) (by omega)
          have e1 : filePos + 36 * (k + 1) + 16 = filePos + 36 + 36 * k + 16 := by ring
          have e2 : filePos + 36 * (k + 1) + 21 = filePos + 36 + 36 * k + 21 := by ring
          rw [e1, e2] at h1
          exact h1)
      have hdiv : (atomSize - gpsSize) / 36 = (atomSize - (gpsSize + 36)) / 36 + 1 := by
        rw [Nat.div_eq_sub_div (by omega) (by omega), Nat.sub_sub]
      simp only [gpsLoop, if_pos hc, if_neg hnotshort, if_neg hdec]
      refine ⟨hrec.1, hrec.2.1, ?_, ?_⟩
      · rw [hrec.2.2.1, hdiv]
        ring
      · simp only [List.length_cons, hrec.2.2.2, hdiv]
    · have hz : (atomSize - gpsSize) / 36 = 0 := Nat.div_eq_of_lt (by omega)
      simp [gpsLoop, if_neg hc, hz]

/-- Unfolding of one outer-loop iteration (definitional). -/
theorem parseLoop_succ (input : List Nat) (base : PyDateTime) (fuel offset : Nat) :
    parseLoop input base (fuel + 1) offset =
      match stepBlock input base offset with
      | Step.broke es => ⟨[], es, 0, true, Outcome.completed⟩
      | Step.raised ls es => ⟨ls, es, 0, false, Outcome.raised⟩
      | Step.next noff ls es ws => consResult ls es ws (parseLoop input base fuel noff) := rfl

/-- One iteration that continues: the loop proceeds at `noff`. -/
theorem parseLoop_next (input : List Nat) (base : PyDateTime) (fuel offset noff : Nat)
    (ls : List (List Char)) (es : List LogErr) (ws : Nat)
    (h : stepBlock input base offset = Step.next noff ls es ws) :
    parseLoop input base (fuel + 1) offset =
      consResult ls es ws (parseLoop input base fuel noff) := by
  rw [parseLoop_succ, h]

/-- One iteration that breaks: the loop ends, the sink is closed. -/
theorem parseLoop_broke (input : List Nat) (base : PyDateTime) (fuel offset : Nat)
    (es : List LogErr) (h : stepBlock input base offset = Step.broke es) :
    parseLoop input base (fuel + 1) offset = ⟨[], es, 0, true, Outcome.completed⟩ := by
  rw [parseLoop_succ, h]

/-- C1: the source treats a block with 32-bit size field 1 and 64-bit
size `S` differently from an ordinary block of size `S`: after
`offset += 8` (line 88) and `offset += atom_size` (line 150) the next
header is read at `block_start + 8 + S`, not at `block_start + S`, and
the records are decoded starting at `block_start + 16`.  Evaluated on a
big `GPS ` atom with `S = 44` and one record, against the same ordinary
atom of size 44: the big atom continues at 52, the ordinary one at 44. -/
theorem big_atom_skip_mismatch :
    beBytes (readBytes bigAtomContainer 8 8) = 44 ∧
    stepBlock bigAtomContainer sampleBase 0 =
      Step.next 52 [renderRecord sampleBase recordZero] [] 0 ∧
    stepBlock ordAtomContainer sampleBase 0 =
      Step.next 44 [renderRecord sampleBase recordZero] [] 0 ∧
    (52 : Nat) ≠ 0 + 44 := by decide

/-- C5 counterexample: on a 4-byte container the header read returns 4
bytes (strictly between 1 and 7), yet the walk ends with no error
logged, outcome `completed`, and the sink closed — there is no fatal
parse error distinct from the clean-EOF exit (source lines 70-72 `break`
on any short read). -/
theorem midheader_eof_no_error_cx :
    (readBytes shortHeaderContainer 0 8).length = 4 ∧
    (parse_70mai_mp4 shortHeaderContainer sampleBase).errors = [] ∧
    (parse_70mai_mp4 shortHeaderContainer sampleBase).outcome = Outcome.completed ∧
    (parse_70mai_mp4 shortHeaderContainer sampleBase).sinkClosed = true := by decide

/-- C5 amended: whenever fewer than 8 bytes remain at the current
offset — whether 0 or 1-7 — the walk ends normally: no lines, no
errors, no warnings, sink closed, outcome `completed`. -/
theorem short_header_normal_end (input : List Nat) (base : PyDateTime) (offset fuel : Nat)
    (h : input.length < offset + 8) :
    parseLoop input base (fuel + 1) offset = ⟨[], [], 0, true, Outcome.completed⟩ := by
  have hlen : (readBytes input offset 8).length < 8 := by
    rw [readBytes_length]
    omega
  have hstep : stepBlock input base offset = Step.broke [] := by
    unfold stepBlock
    rw [if_pos hlen]
  rw [parseLoop_succ, hstep]

theorem short_header_normal_end_witness :
    shortHeaderContainer.length < 0 + 8 ∧
    parseLoop shortHeaderContainer sampleBase 1 0 = ⟨[], [], 0, true, Outcome.completed⟩ :=
  ⟨by decide, short_header_normal_end shortHeaderContainer sampleBase 0 0 (by decide)⟩

/-- C6: the claim states the sink is closed on every exit path; in the
source an uncaught `UnicodeDecodeError` (non-ASCII type tag at line 79,
or non-ASCII hemisphere byte at lines 112-113) escapes the routine
before `outfile.close()` at line 153 is reached, so the sink is left
unclosed on those paths. -/
theorem sink_unclosed_on_exception :
    (parse_70mai_mp4 badTypeContainer sampleBase).outcome = Outcome.raised ∧
    (parse_70mai_mp4 badTypeContainer sampleBase).sinkClosed = false ∧
    (parse_70mai_mp4 badHemiContainer sampleBase).outcome = Outcome.raised ∧
    (parse_70mai_mp4 badHemiContainer sampleBase).sinkClosed = false := by decide

/-- C9: for any block whose full 8-byte header carries a 32-bit size
that is neither 0 nor 1, if the iteration continues (`Step.next`), it
continues exactly at `offset + size`, and the walk then reads the next
header there — independent of block type and of how much of the payload
the record loop consumed. -/
theorem block_walk_advances (input : List Nat) (base : PyDateTime)
    (offset fuel noff : Nat) (ls : List (List Char)) (es : List LogErr) (ws : Nat)
    (hfull : (readBytes input offset 8).length = 8)
    (hs0 : beBytes ((readBytes input offset 8).take 4) ≠ 0)
    (hs1 : beBytes ((readBytes input offset 8).take 4) ≠ 1)
    (hstep : stepBlock input base offset = Step.next noff ls es ws) :
    noff = offset + beBytes ((readBytes input offset 8).take 4) ∧
    parseLoop input base (fuel + 1) offset =
      consResult ls es ws (parseLoop input base fuel noff) := by
  refine ⟨?_, by rw [parseLoop_succ, hstep]⟩
  unfold stepBlock at hstep
  rw [if_neg (by omega : ¬ (readBytes input offset 8).length < 8)] at hstep
  by_cases hany : ((readBytes input offset 8).drop 4).any (fun b => 128 ≤ b)
  · rw [if_pos hany] at hstep
    simp at hstep
  · rw [if_neg hany, if_neg hs0, if_neg hs1] at hstep
    unfold processAtom at hstep
    by_cases hgps : (readBytes input offset 8).drop 4 = [71, 80, 83, 32]
    · rw [if_pos hgps] at hstep
      by_cases hexc : (gpsLoop input base (beBytes ((readBytes input offset 8).take 4))
          (beBytes ((readBytes input offset 8).take 4) + 1) 8 (offset + 8)).exc
      · rw [if_pos hexc] at hstep
        simp at hstep
      · rw [if_neg hexc] at hstep
        simp only [Step.next.injEq] at hstep
        omega
    · rw [if_neg hgps] at hstep
      simp only [Step.next.injEq] at hstep
      omega

theorem block_walk_advances_witness :
    stepBlock truncRecordContainer sampleBase 0 = Step.next 50 [] [LogErr.recordTruncated] 1 ∧
    (50 : Nat) = 0 + beBytes ((readBytes truncRecordContainer 0 8).take 4) ∧
    parseLoop truncRecordContainer sampleBase 2 0 =
      consResult [] [LogErr.recordTruncated] 1 (parseLoop truncRecordContainer sampleBase 1 50) := by
  have hstep : stepBlock truncRecordContainer sampleBase 0 =
      Step.next 50 [] [LogErr.recordTruncated] 1 := by decide
  have h := block_walk_advances truncRecordContainer sampleBase 0 1 50 [] [LogErr.recordTruncated] 1
    (by decide) (by decide) (by decide) hstep
  exact ⟨hstep, h.1, h.2⟩

/-- C3 counterexample: the invalid-fix line rendered for a zero record
is `V,270120,170409.000,,,,,,M,,,;` — with six commas (five empty
fields) between the time field and `M` — and differs from the line the
claim describes, which has seven commas (six empty fields) there. -/
theorem validity_branch_fields_cx :
    renderRecord sampleBase recordZero = ("V,270120,170409.000,,,,,,M,,,;").data ∧
    renderRecord sampleBase recordZero ≠ ("V,270120,170409.000,,,,,,,M,,,;").data := by decide

/-- C3 amended: a `validity == 1` record always renders fields
`A`, date, time, latitude, hemisphere, longitude, hemisphere, speed,
three empty fields and the `;` terminator field; a `validity != 1`
record renders `V`, date, time, exactly FIVE empty fields, the literal
`M`, two further empty fields and the `;` terminator field (i.e. five,
not six, empty fields separate the time field from `M`). -/
theorem validity_branch_fields (r : GpsRecord) (base : PyDateTime)
    (hlat : r.clat < 128) (hlon : r.clon < 128)
    (hlat44 : r.clat ≠ 44) (hlon44 : r.clon ≠ 44) :
    splitFields (renderRecord base r) =
      if r.f2 = 1 then
        [['A'], dateChars (addSeconds base r.time_diff),
         timeChars (addSeconds base r.time_diff) ++ ['.', '0', '0', '0'],
         fmtFixedW 8 4 (latFrac r), [Char.ofNat r.clat],
         fmtFixedW 8 4 (lonFrac r), [Char.ofNat r.clon],
         fmtFixed 2 (speedFrac r), [], [], [], [';']]
      else
        [['V'], dateChars (addSeconds base r.time_diff),
         timeChars (addSeconds base r.time_diff) ++ ['.', '0', '0', '0'],
         [], [], [], [], [], ['M'], [], [], [';']] :=
  splitFields_renderRecord base r hlat hlon hlat44 hlon44

theorem validity_branch_fields_witness :
    splitFields (renderRecord sampleBase recordZero) =
      [['V'], ['2', '7', '0', '1', '2', '0'],
       ['1', '7', '0', '4', '0', '9', '.', '0', '0', '0'],
       [], [], [], [], [], ['M'], [], [], [';']] := by
  have h := validity_branch_fields recordZero sampleBase
    (by decide) (by decide) (by decide) (by decide)
  exact h.trans (by decide)

/-- C4 counterexample: for `lat_raw = 51500` the rendered latitude field
is `' 51.5000'` (the `{:8.4f}` format right-aligns to width 8 with a
leading space), not the claimed `'51.5000'`; and for `lat_raw = -51500`
it is `'-51.5000'`, not the absolute-value rendering `'51.5000'`. -/
theorem latitude_field_cx :
    (splitFields (renderRecord sampleBase recordLatPos)).getD 3 [] =
      [' ', '5', '1', '.', '5', '0', '0', '0'] ∧
    [' ', '5', '1', '.', '5', '0', '0', '0'] ≠ ['5', '1', '.', '5', '0', '0', '0'] ∧
    (splitFields (renderRecord sampleBase recordLatNeg)).getD 3 [] =
      ['-', '5', '1', '.', '5', '0', '0', '0'] ∧
    ['-', '5', '1', '.', '5', '0', '0', '0'] ≠ ['5', '1', '.', '5', '0', '0', '0'] := by decide

/-- C4 amended: the rendered latitude field is the SIGNED value
`lat_raw / 1000` (no absolute value is taken) formatted to 4 decimal
places and right-aligned with spaces to width 8; for `lat_raw = 51500`
it is `' 51.5000'` with a leading space. -/
theorem latitude_field_rendering (r : GpsRecord) (base : PyDateTime) (hf : r.f2 = 1)
    (hlat : r.clat < 128) (hlon : r.clon < 128)
    (hlat44 : r.clat ≠ 44) (hlon44 : r.clon ≠ 44) :
    (splitFields (renderRecord base r)).getD 3 [] = fmtFixedW 8 4 (latFrac r) ∧
    (latFrac r).toRat = (r.lat : ℚ) / 1000 := by
  constructor
  · rw [splitFields_renderRecord base r hlat hlon hlat44 hlon44]
    simp [hf]
  · simp [latFrac, fracDiv, Frac.toRat]

theorem latitude_field_rendering_witness :
    recordLatPos.f2 = 1 ∧
    (splitFields (renderRecord sampleBase recordLatPos)).getD 3 [] =
      [' ', '5', '1', '.', '5', '0', '0', '0'] := by
  have h := latitude_field_rendering recordLatPos sampleBase rfl
    (by decide) (by decide) (by decide) (by decide)
  exact ⟨rfl, h.1.trans (by decide)⟩

/-- C7: for every record (valid or invalid fix) the date and time fields
of the emitted line render `addSeconds base time_offset_seconds` — the
embedding of `ftime + timedelta(seconds=time_diff)` — as `DDMMYY` and
`HHMMSS.000`. -/
theorem timestamp_rendering (r : GpsRecord) (base : PyDateTime)
    (hlat : r.clat < 128) (hlon : r.clon < 128)
    (hlat44 : r.clat ≠ 44) (hlon44 : r.clon ≠ 44) :
    (splitFields (renderRecord base r)).getD 1 [] =
      dateChars (addSeconds base r.time_diff) ∧
    (splitFields (renderRecord base r)).getD 2 [] =
      timeChars (addSeconds base r.time_diff) ++ ['.', '0', '0', '0'] := by
  rw [splitFields_renderRecord base r hlat hlon hlat44 hlon44]
  by_cases hf : r.f2 = 1 <;> simp [hf]

theorem timestamp_rendering_witness :
    recordTime5.time_diff = 5 ∧
    (splitFields (renderRecord sampleBase recordTime5)).getD 1 [] =
      ['2', '7', '0', '1', '2', '0'] ∧
    (splitFields (renderRecord sampleBase recordTime5)).getD 2 [] =
      ['1', '7', '0', '4', '1', '4', '.', '0', '0', '0'] := by
  have h := timestamp_rendering recordTime5 sampleBase
    (by decide) (by decide) (by decide) (by decide)
  exact ⟨rfl, h.1.trans (by decide), h.2.trans (by decide)⟩

/-- C8: the speed field of a valid-fix line is
`float(speed)/1000.0/1.852` formatted to 2 decimal places, and that
value is exactly `speed_raw / 1000 / 1.852` (in knots). -/
theorem speed_field_rendering (r : GpsRecord) (base : PyDateTime) (hf : r.f2 = 1)
    (hlat : r.clat < 128) (hlon : r.clon < 128)
    (hlat44 : r.clat ≠ 44) (hlon44 : r.clon ≠ 44) :
    (splitFields (renderRecord base r)).getD 7 [] = fmtFixed 2 (speedFrac r) ∧
    (speedFrac r).toRat = (r.speed : ℚ) / 1000 / 1.852 := by
  constructor
  · rw [splitFields_renderRecord base r hlat hlon hlat44 hlon44]
    simp [hf]
  · simp [speedFrac, fracDiv, Frac.toRat]
    norm_num
    ring

theorem speed_field_rendering_witness :
    recordSpeedKnot.f2 = 1 ∧ recordSpeedKnot.speed = 1852 ∧
    (splitFields (renderRecord sampleBase recordSpeedKnot)).getD 7 [] =
      ['1', '.', '0', '0'] := by
  have h := speed_field_rendering recordSpeedKnot sampleBase rfl
    (by decide) (by decide) (by decide) (by decide)
  exact ⟨rfl, rfl, h.1.trans (by decide)⟩

/-- C10: hemisphere bytes are never validated.  Any ASCII (`< 0x80`)
hemisphere bytes of a valid-fix record are copied verbatim into the
line, whatever characters they are; and a hemisphere byte `≥ 0x80`
makes the container processing end in an uncaught exception (outcome
`raised`), not handled inside `parse_70mai_mp4`. -/
theorem hemisphere_passthrough :
    (∀ (r : GpsRecord) (base : PyDateTime), r.f2 = 1 → r.clat < 128 → r.clon < 128 →
      renderRecord base r =
        ['A', ','] ++ dateChars (addSeconds base r.time_diff) ++ [','] ++
          timeChars (addSeconds base r.time_diff) ++ ['.', '0', '0', '0', ','] ++
          fmtFixedW 8 4 (latFrac r) ++ [','] ++ [Char.ofNat r.clat] ++ [','] ++
          fmtFixedW 8 4 (lonFrac r) ++ [','] ++ [Char.ofNat r.clon] ++ [','] ++
          fmtFixed 2 (speedFrac r) ++ [',', ',', ',', ',', ';']) ∧
    (parse_70mai_mp4 badHemiContainer sampleBase).outcome = Outcome.raised ∧
    (parse_70mai_mp4 badHemiContainer sampleBase).lines = [] := by
  refine ⟨?_, by decide, by decide⟩
  intro r base hf _ _
  simp [renderRecord, hf]

theorem hemisphere_passthrough_witness :
    recordOddHemi.f2 = 1 ∧ recordOddHemi.clat = 120 ∧ recordOddHemi.clon = 63 ∧
    renderRecord sampleBase recordOddHemi =
      ("A,270120,170409.000,  0.0000,x,  0.0000,?,0.00,,,,;").data := by
  refine ⟨rfl, rfl, rfl, ?_⟩
  exact (hemisphere_passthrough.1 recordOddHemi sampleBase rfl
    (by decide) (by decide)).trans (by decide)

/-- Each well-formed atom is nonempty, so a container of `n` atoms is
at least `n` bytes long. -/
theorem length_le_flatten_length (l : List (List Nat)) (h : ∀ a ∈ l, 1 ≤ a.length) :
    l.length ≤ l.flatten.length := by
  induction l with
  | nil => simp
  | cons a l ih =>
    simp only [List.flatten_cons, List.length_cons, List.length_append]
    have h1 := h a (List.mem_cons_self a l)
    have h2 := ih (fun x hx => h x (List.mem_cons_of_mem a hx))
    omega

/-- Reading inside the suffix starting at `offset` reads the atom. -/
theorem getD_of_drop_append (input : List Nat) (offset : Nat) (a rest : List Nat)
    (hsuffix : input.drop offset = a ++ rest) (j : Nat) (hj : j < a.length) :
    input.getD (offset + j) 0 = a.getD j 0 := by
  have h1 : input[offset + j]? = (input.drop offset)[j]? :=
    (List.getElem?_drop input offset j).symm
  simp [List.getD, h1, hsuffix, List.getElem?_append_left hj]

/-- One outer-loop iteration at the start of a well-formed atom `a`
(with arbitrary bytes `rest` after it): it always continues at
`offset + a.length`, logs no error, and contributes `atomLineCount a`
lines and `atomWarnCount a` warnings. -/
theorem stepBlock_wfAtom (input : List Nat) (base : PyDateTime) (offset : Nat)
    (a rest : List Nat) (hsuffix : input.drop offset = a ++ rest)
    (hwf : WFAtom a) (hpay : isGpsAtom a → WFGpsPayload a) :
    ∃ ls ws, stepBlock input base offset = Step.next (offset + a.length) ls [] ws ∧
      ls.length = atomLineCount a ∧ ws = atomWarnCount a := by
  obtain ⟨hlen8, hsize, htype⟩ := hwf
  have hlenda : input.length - offset = a.length + rest.length := by
    have h0 : (input.drop offset).length = a.length + rest.length := by
      rw [hsuffix, List.length_append]
    rw [List.length_drop] at h0
    exact h0
  have hheader : readBytes input offset 8 = a.take 8 := by
    show (input.drop offset).take 8 = a.take 8
    rw [hsuffix, List.take_append_eq_append_take]
    simp [Nat.sub_eq_zero_of_le hlen8]
  have ht4 : (a.take 8).take 4 = a.take 4 := by
    rw [List.take_take]
    norm_num
  have hd4 : (a.take 8).drop 4 = (a.drop 4).take 4 := by
    simp [List.drop_take]
  have hany : ((a.drop 4).take 4).any (fun b => 128 ≤ b) = false := by
    rw [List.any_eq_false]
    intro x hx
    simp [Nat.not_le.mpr (htype x hx)]
  have hstep1 : stepBlock input base offset =
      processAtom input base ((a.drop 4).take 4) a.length offset (offset + 8) := by
    unfold stepBlock
    rw [hheader]
    rw [if_neg (show ¬ (a.take 8).length < 8 from by rw [List.length_take]; omega)]
    rw [ht4, hd4, hsize]
    rw [if_neg (show ¬ ((((a.drop 4).take 4).any fun b => 128 ≤ b) = true) from by
      simp [hany])]
    rw [if_neg (show ¬ a.length = 0 from by omega),
      if_neg (show ¬ a.length = 1 from by omega)]
  by_cases hgps : (a.drop 4).take 4 = [71, 80, 83, 32]
  · have hg := gpsLoop_complete input base a.length (a.length + 1) 8 (offset + 8)
      (by omega)
      (by omega)
      (fun k hk => by
        have h1 := hpay hgps k hk
        have e1 : offset + 8 + 36 * k + 16 = offset + (8 + 36 * k + 16) := by ring
        have e2 : offset + 8 + 36 * k + 21 = offset + (8 + 36 * k + 21) := by ring
        rw [e1, e2,
          getD_of_drop_append input offset a rest hsuffix _ (by omega),
          getD_of_drop_append input offset a rest hsuffix _ (by omega)]
        exact h1)
    refine ⟨(gpsLoop input base a.length (a.length + 1) 8 (offset + 8)).lines,
      (if (gpsLoop input base a.length (a.length + 1) 8 (offset + 8)).gpsEnd ≠ a.length
        then 1 else 0), ?_, ?_, ?_⟩
    · rw [hstep1]
      unfold processAtom
      rw [if_pos hgps]
      rw [if_neg (show ¬ ((gpsLoop input base a.length (a.length + 1) 8 (offset + 8)).exc
        = true) from by rw [hg.2.1]; simp)]
      rw [hg.1]
    · rw [hg.2.2.2]
      simp only [atomLineCount]
      rw [if_pos hgps]
    · rw [hg.2.2.1]
      simp only [atomWarnCount]
      have hdm := Nat.div_add_mod (a.length - 8) 36
      by_cases hm : (a.length - 8) % 36 = 0
      · rw [if_neg (show ¬ (8 + 36 * ((a.length - 8) / 36) ≠ a.length) from by omega),
          if_neg (show ¬ ((a.drop 4).take 4 = [71, 80, 83, 32] ∧ (a.length - 8) % 36 ≠ 0)
            from fun hc => hc.2 hm)]
      · rw [if_pos (show 8 + 36 * ((a.length - 8) / 36) ≠ a.length from by omega),
          if_pos (show (a.drop 4).take 4 = [71, 80, 83, 32] ∧ (a.length - 8) % 36 ≠ 0
            from ⟨hgps, hm⟩)]
  · refine ⟨[], 0, ?_, ?_, ?_⟩
    · rw [hstep1]
      unfold processAtom
      rw [if_neg hgps]
    · simp [atomLineCount, hgps]
    · simp [atomWarnCount, hgps]

/-- The walk over any suffix made of well-formed, fully decodable
atoms: it completes cleanly with the sink closed, logs no error, and
emits exactly the per-atom line and warning counts. -/
theorem parseLoop_atoms (input : List Nat) (base : PyDateTime) :
    ∀ (atoms : List (List Nat)) (fuel offset : Nat),
    input.drop offset = atoms.flatten →
    atoms.length < fuel →
    (∀ a ∈ atoms, WFAtom a) →
    (∀ a ∈ atoms, isGpsAtom a → WFGpsPayload a) →
    (parseLoop input base fuel offset).errors = [] ∧
    (parseLoop input base fuel offset).outcome = Outcome.completed ∧
    (parseLoop input base fuel offset).sinkClosed = true ∧
    (parseLoop input base fuel offset).lines.length = (atoms.map atomLineCount).sum ∧
    (parseLoop input base fuel offset).warns = (atoms.map atomWarnCount).sum := by
  intro atoms
  induction atoms with
  | nil =>
    intro fuel offset hsuffix hfuel hwf hpay
    rcases fuel with _ | f
    · simp at hfuel
    · have hshort : (readBytes input offset 8).length < 8 := by
        have h0 : (input.drop offset).length = 0 := by
          rw [hsuffix]
          rfl
        rw [List.length_drop] at h0
        rw [readBytes_length]
        omega
      have hstep : stepBlock input base offset = Step.broke [] := by
        unfold stepBlock
        rw [if_pos hshort]
      rw [parseLoop_broke input base f offset [] hstep]
      simp
  | cons a atoms ih =>
    intro fuel offset hsuffix hfuel hwf hpay
    rcases fuel with _ | f
    · simp at hfuel
    · have hf2 : atoms.length < f := by
        simp only [List.length_cons] at hfuel
        omega
      have hsuffix1 : input.drop offset = a ++ atoms.flatten := by
        rw [hsuffix, List.flatten_cons]
      obtain ⟨ls, ws, hstep, hlsc, hwsc⟩ := stepBlock_wfAtom input base offset a atoms.flatten
        hsuffix1 (hwf a (List.mem_cons_self a atoms)) (hpay a (List.mem_cons_self a atoms))
      have hsuffix2 : input.drop (offset + a.length) = atoms.flatten := by
        have h1 : input.drop (offset + a.length) = (input.drop offset).drop a.length := by
          rw [List.drop_drop]
        rw [h1, hsuffix1, List.drop_left]
      have hr := ih f (offset + a.length) hsuffix2 hf2
        (fun x hx => hwf x (List.mem_cons_of_mem a hx))
        (fun x hx => hpay x (List.mem_cons_of_mem a hx))
      rw [parseLoop_next input base f offset (offset + a.length) ls [] ws hstep]
      refine ⟨?_, ?_, ?_, ?_, ?_⟩
      · simp [consResult, hr.1]
      · simp [consResult, hr.2.1]
      · simp [consResult, hr.2.2.1]
      · simp [consResult, List.length_append, hlsc, hr.2.2.2.1]
      · simp [consResult, hwsc, hr.2.2.2.2]

/-- The telemetry atom of `gpsContainer136` decodes fully: its payload
is all zero bytes, so every hemisphere byte is ASCII. -/
theorem gpsContainer136_payload : WFGpsPayload gpsContainer136 := by
  intro k hk
  have hl : ([0, 0, 0, 136, 71, 80, 83, 32] : List Nat).length = 8 := rfl
  have h1 := getD_append_right [0, 0, 0, 136, 71, 80, 83, 32] (List.replicate 128 0) (36 * k + 16)
  have h2 := getD_append_right [0, 0, 0, 136, 71, 80, 83, 32] (List.replicate 128 0) (36 * k + 21)
  rw [hl] at h1 h2
  have e1 : (8 : Nat) + 36 * k + 16 = 8 + (36 * k + 16) := by ring
  have e2 : (8 : Nat) + 36 * k + 21 = 8 + (36 * k + 21) := by ring
  unfold gpsContainer136
  rw [e1, e2, h1, h2, getD_replicate_zero, getD_replicate_zero]
  omega

/-- C2: a well-formed container containing exactly one telemetry
(`GPS `) block — any run of well-formed non-telemetry atoms, then the
telemetry block of total size `B = g.length` (header included, `B ≥ 8`),
then any further run of well-formed non-telemetry atoms — makes the
decoder emit exactly `(B - 8) / 36` output lines; it logs the
size-mismatch warning exactly when `B - 8` is not a multiple of 36,
logs no error, and completes normally (the leftover tail never
discards the decoded lines). -/
theorem telemetry_line_count (pre post : List (List Nat)) (g : List Nat) (base : PyDateTime)
    (hpre : ∀ a ∈ pre, WFAtom a ∧ ¬ isGpsAtom a)
    (hpost : ∀ a ∈ post, WFAtom a ∧ ¬ isGpsAtom a)
    (hg : WFAtom g) (hgps : isGpsAtom g) (hpay : WFGpsPayload g) :
    (parse_70mai_mp4 ((pre ++ g :: post).flatten) base).lines.length
        = (g.length - 8) / 36 ∧
    (parse_70mai_mp4 ((pre ++ g :: post).flatten) base).warns
        = (if (g.length - 8) % 36 = 0 then 0 else 1) ∧
    (parse_70mai_mp4 ((pre ++ g :: post).flatten) base).errors = [] ∧
    (parse_70mai_mp4 ((pre ++ g :: post).flatten) base).outcome = Outcome.completed := by
  set atoms := pre ++ g :: post with hatoms
  have hwfAll : ∀ a ∈ atoms, WFAtom a := by
    intro a ha
    rw [hatoms] at ha
    rcases List.mem_append.1 ha with h | h
    · exact (hpre a h).1
    · rcases List.mem_cons.1 h with h | h
      · exact h ▸ hg
      · exact (hpost a h).1
  have hpayAll : ∀ a ∈ atoms, isGpsAtom a → WFGpsPayload a := by
    intro a ha hga
    rw [hatoms] at ha
    rcases List.mem_append.1 ha with h | h
    · exact absurd hga (hpre a h).2
    · rcases List.mem_cons.1 h with h | h
      · exact h ▸ hpay
      · exact absurd hga (hpost a h).2
  have hfuel : atoms.length < atoms.flatten.length + 1 := by
    have h1 := length_le_flatten_length atoms (fun a ha => by
      have := (hwfAll a ha).1
      omega)
    omega
  have h := parseLoop_atoms atoms.flatten base atoms (atoms.flatten.length + 1) 0
    (by simp) hfuel hwfAll hpayAll
  have hline : (atoms.map atomLineCount).sum = (g.length - 8) / 36 := by
    rw [hatoms, List.map_append, List.sum_append, List.map_cons, List.sum_cons]
    have hp0 : (pre.map atomLineCount).sum = 0 := by
      apply List.sum_eq_zero
      intro x hx
      rcases List.mem_map.1 hx with ⟨a, ha, rfl⟩
      simp only [atomLineCount]
      rw [if_neg (show ¬ ((a.drop 4).take 4 = [71, 80, 83, 32]) from (hpre a ha).2)]
    have hq0 : (post.map atomLineCount).sum = 0 := by
      apply List.sum_eq_zero
      intro x hx
      rcases List.mem_map.1 hx with ⟨a, ha, rfl⟩
      simp only [atomLineCount]
      rw [if_neg (show ¬ ((a.drop 4).take 4 = [71, 80, 83, 32]) from (hpost a ha).2)]
    have hgl : atomLineCount g = (g.length - 8) / 36 := by
      simp only [atomLineCount]
      rw [if_pos (show (g.drop 4).take 4 = [71, 80, 83, 32] from hgps)]
    rw [hp0, hq0, hgl]
    omega
  have hwarn : (atoms.map atomWarnCount).sum
      = (if (g.length - 8) % 36 = 0 then 0 else 1) := by
    rw [hatoms, List.map_append, List.sum_append, List.map_cons, List.sum_cons]
    have hp0 : (pre.map atomWarnCount).sum = 0 := by
      apply List.sum_eq_zero
      intro x hx
      rcases List.mem_map.1 hx with ⟨a, ha, rfl⟩
      simp only [atomWarnCount]
      rw [if_neg (show ¬ ((a.drop 4).take 4 = [71, 80, 83, 32] ∧ (a.length - 8) % 36 ≠ 0)
        from fun hc => (hpre a ha).2 hc.1)]
    have hq0 : (post.map atomWarnCount).sum = 0 := by
      apply List.sum_eq_zero
      intro x hx
      rcases List.mem_map.1 hx with ⟨a, ha, rfl⟩
      simp only [atomWarnCount]
      rw [if_neg (show ¬ ((a.drop 4).take 4 = [71, 80, 83, 32] ∧ (a.length - 8) % 36 ≠ 0)
        from fun hc => (hpost a ha).2 hc.1)]
    have hgw : atomWarnCount g = (if (g.length - 8) % 36 = 0 then 0 else 1) := by
      simp only [atomWarnCount]
      by_cases hm : (g.length - 8) % 36 = 0
      · rw [if_neg (show ¬ ((g.drop 4).take 4 = [71, 80, 83, 32] ∧ (g.length - 8) % 36 ≠ 0)
            from fun hc => hc.2 hm), if_pos hm]
      · rw [if_pos (show (g.drop 4).take 4 = [71, 80, 83, 32] ∧ (g.length - 8) % 36 ≠ 0
            from ⟨hgps, hm⟩), if_neg hm]
    rw [hp0, hq0, hgw]
    split_ifs <;> simp
  unfold parse_70mai_mp4
  refine ⟨?_, ?_, h.1, h.2.1⟩
  · rw [h.2.2.2.1, hline]
  · rw [h.2.2.2.2, hwarn]

/-- C2 witness: the three-atom container `free ++ GPS(136) ++ mdat`,
whose telemetry block holds 3 records plus 20 leftover bytes, emits
exactly 3 lines with exactly one size-mismatch warning. -/
theorem telemetry_line_count_witness :
    (parse_70mai_mp4 (([freeAtom] ++ gpsContainer136 :: [mdatAtom]).flatten)
      sampleBase).lines.length = 3 ∧
    (parse_70mai_mp4 (([freeAtom] ++ gpsContainer136 :: [mdatAtom]).flatten)
      sampleBase).warns = 1 := by
  have h := telemetry_line_count [freeAtom] [mdatAtom] gpsContainer136 sampleBase
    (by
      intro a ha
      rw [List.mem_singleton] at ha
      subst ha
      unfold WFAtom isGpsAtom
      decide)
    (by
      intro a ha
      rw [List.mem_singleton] at ha
      subst ha
      unfold WFAtom isGpsAtom
      decide)
    (by unfold WFAtom; decide)
    (by unfold isGpsAtom; decide)
    gpsContainer136_payload
  refine ⟨h.1.trans (by decide), (h.2.1).trans (by decide)⟩
